import Mathlib

/-!
Shallow embedding of the core runtime of the pythnet-heisenberg testing
toolkit, together with proofs checking the natural-language design
document against the code.

Embedded components (file and symbol names follow the Rust source):
* `src/price_store/instructions/submit_prices.rs`: `BufferedPrice`.
* `src/blockhash_cache.rs`: `BlockhashCache` state transitions.
* `src/node_address_service.rs`: the cluster-contacts refresh decision of
  `maybe_fetch_cache_info` and `RecentLeaderSlots::estimated_current_slot`.
* `src/price_store/benchmark1/price_publisher.rs`: the pending-send list
  built by `start_all_price_updates`.
* `src/price_store/benchmark1/price_source.rs`: `PriceSource::get`.
* `src/tx_sheppard.rs`: the shepherd execution loop as a step relation on
  its owned state (status vector, in-flight send set, status-check set,
  terminal counters).

Machine integers are modelled as `Nat` / `Int` with explicit wrapping or
saturation where the Rust semantics requires it.  Fallible operations
(Rust panics, `Result`) are modelled with `Option` / `Except`.
-/

namespace PythnetHeisenberg

/-! ## BufferedPrice (`src/price_store/instructions/submit_prices.rs`) -/

/-- `TradingStatus` enum, `#[repr(u8)]` with discriminants 0..4. -/
inductive TradingStatus where
  | Unknown
  | Trading
  | Halted
  | Auction
  | Ignored
deriving DecidableEq, Repr

/-- The numeric value of a `TradingStatus` variant (`trading_status as u32`). -/
def TradingStatus.repr_u32 : TradingStatus → Nat
  | .Unknown => 0
  | .Trading => 1
  | .Halted => 2
  | .Auction => 3
  | .Ignored => 4

/-- `FEED_INDEX_MAX: u32 = (1 << 28) - 1`. -/
def FEED_INDEX_MAX : Nat := (1 <<< 28) - 1

/-- `BufferedPrice`: `trading_status_and_feed_index: u32` (4 high bits are the
trading status, 28 low bits the feed index), `price: i64`, `confidence: u64`.
The `u32` field is a `Nat` that is kept below `2^32`; `price` is an `Int`
within the `i64` range; `confidence` a `Nat` below `2^64`. -/
structure BufferedPrice where
  trading_status_and_feed_index : Nat
  price : Int
  confidence : Nat
deriving DecidableEq, Repr

/-- `BufferedPrice::new`.  The `assert!(feed_index <= FEED_INDEX_MAX)` is
modelled by returning `none` (panic) when the bound fails.  The packing
expression is `((trading_status as u32) << 28) | feed_index`, performed in
`u32` arithmetic (reduced modulo `2^32`). -/
def BufferedPrice.new (trading_status : TradingStatus) (feed_index : Nat)
    (price : Int) (confidence : Nat) : Option BufferedPrice :=
  if feed_index ≤ FEED_INDEX_MAX then
    some
      { trading_status_and_feed_index :=
          (((trading_status.repr_u32 <<< 28) % 2 ^ 32) ||| feed_index) % 2 ^ 32
        price
        confidence }
  else
    none

/-- Decoding described by the spec: the high 4 bits of the packed `u32`. -/
def decode_trading_status (packed : Nat) : Nat := packed >>> 28

/-- Decoding described by the spec: the low 28 bits of the packed `u32`. -/
def decode_feed_index (packed : Nat) : Nat := packed % 2 ^ 28

/-! ## BlockhashCache (`src/blockhash_cache.rs`)

A `Hash` is a 32-byte opaque identifier; it is modelled as a `Nat`, with `0`
standing for `Hash::default()` (the all-zero hash).  An RPC outcome of
`get_latest_blockhash()` is `Except String Hash`. -/

/-- The blockhash value, `solana_sdk::hash::Hash`; `0` is `Hash::default()`. -/
abbrev Blockhash := Nat

/-- `BlockhashCache::refresh`: given the stored hash and the outcome of the
`get_latest_blockhash()` RPC call, return the function result together with
the new stored hash.  On RPC failure the error is propagated (with the
`get_latest_blockhash() failed` context) and the store is untouched; on
success, a hash identical to the stored one only warns, a different one is
stored. -/
def BlockhashCache.refresh (stored : Blockhash) (rpc_result : Except String Blockhash) :
    Except String Unit × Blockhash :=
  match rpc_result with
  | .error e => (.error ("get_latest_blockhash() failed: " ++ e), stored)
  | .ok blockhash =>
      if stored = blockhash then
        (.ok (), stored)
      else
        (.ok (), blockhash)

/-- `BlockhashCache::init`: repeatedly calls `refresh` until the stored value
is non-default.  The (infinite) sequence of RPC outcomes is cut to a finite
list; `none` means the list was exhausted while `init` was still looping. -/
def BlockhashCache.init (stored : Blockhash) :
    List (Except String Blockhash) → Option Blockhash
  | [] => none
  | r :: rs =>
      let stored' := (BlockhashCache.refresh stored r).2
      if stored' ≠ 0 then some stored' else BlockhashCache.init stored' rs

/-- Folding a sequence of later `refresh` calls over a stored hash. -/
def BlockhashCache.refresh_seq (stored : Blockhash)
    (rpc_results : List (Except String Blockhash)) : Blockhash :=
  rpc_results.foldl (fun s r => (BlockhashCache.refresh s r).2) stored

/-! ## Cluster-contacts refresh decision (`src/node_address_service.rs`)

`maybe_fetch_cache_info` decides whether this iteration of
`NodeAddressService::run` issues the `get_cluster_nodes` RPC.  Durations are
in milliseconds. -/

/-- The source condition guarding the `get_cluster_nodes` call:
`last_cluster_refresh.elapsed() <= Duration::from_secs(5 * 60)`. -/
def should_fetch_cluster_nodes (elapsed_ms : Nat) : Bool :=
  elapsed_ms ≤ 5 * 60 * 1000

/-- The times (in ms) at which the background loop issues `get_cluster_nodes`,
for iterations happening at the given times, assuming every issued fetch
succeeds.  Mirrors `NodeAddressService::run`: on a successful cluster refresh
`last_cluster_refresh` is reset to the current instant. -/
def cluster_fetch_times (last_refresh : Nat) : List Nat → List Nat
  | [] => []
  | t :: ts =>
      if should_fetch_cluster_nodes (t - last_refresh) then
        t :: cluster_fetch_times t ts
      else
        cluster_fetch_times last_refresh ts

/-! ## RecentLeaderSlots (`src/node_address_service.rs`)

The `VecDeque<Slot>` behind the `RwLock` is modelled as a `List Nat`
(front first). -/

/-- `MAX_SLOT_SKIP_DISTANCE: u64 = 4 * 12`. -/
def MAX_SLOT_SKIP_DISTANCE : Nat := 4 * 12

/-- `RecentLeaderSlots::new`: a deque holding just the current slot. -/
def RecentLeaderSlots.new (current_slot : Nat) : List Nat := [current_slot]

/-- `RecentLeaderSlots::record_slot`: push the slot at the back, then pop the
front while more than 12 entries remain. -/
def RecentLeaderSlots.record_slot (recent_slots : List Nat) (current_slot : Nat) :
    List Nat :=
  let pushed := recent_slots ++ [current_slot]
  pushed.drop (pushed.length - 12)

/-- The sorted copy made by `estimated_current_slot`
(`recent_slots.sort_unstable()`, ascending). -/
def RecentLeaderSlots.sorted_copy (recent_slots : List Nat) : List Nat :=
  recent_slots.mergeSort (· ≤ ·)

/-- `max_reasonable_current_slot` as computed by `estimated_current_slot`:
`sorted[median_index] + (max_index - median_index) + MAX_SLOT_SKIP_DISTANCE`
with `max_index = len - 1` and `median_index = max_index / 2`.  (Rust indexing
is modelled with `getD`; for a non-empty deque `median_index` is in bounds.)
Both additions are `u64` additions: they wrap modulo `2^64` as in a release
build (in a debug build they panic instead; either way the estimator does
not survive a median slot within about 48 of `u64::MAX`, see the
counterexample theorems). -/
def RecentLeaderSlots.max_reasonable_current_slot (recent_slots : List Nat) : Nat :=
  let sorted := RecentLeaderSlots.sorted_copy recent_slots
  let max_index := sorted.length - 1
  let median_index := max_index / 2
  let median_recent_slot := sorted.getD median_index 0
  let expected_current_slot :=
    (median_recent_slot + (max_index - median_index)) % 2 ^ 64
  (expected_current_slot + MAX_SLOT_SKIP_DISTANCE) % 2 ^ 64

/-- The ceiling computation of `estimated_current_slot` stays within `u64`:
`sorted[median_index] + (max_index - median_index) + MAX_SLOT_SKIP_DISTANCE`
does not wrap. -/
def RecentLeaderSlots.ceiling_no_overflow (recent_slots : List Nat) : Prop :=
  (RecentLeaderSlots.sorted_copy recent_slots).getD
      (((RecentLeaderSlots.sorted_copy recent_slots).length - 1) / 2) 0 +
    (((RecentLeaderSlots.sorted_copy recent_slots).length - 1) -
      ((RecentLeaderSlots.sorted_copy recent_slots).length - 1) / 2) +
    MAX_SLOT_SKIP_DISTANCE < 2 ^ 64

/-- `RecentLeaderSlots::estimated_current_slot`, up to the final `.unwrap()`:
walk the sorted copy from the back and return the first (hence greatest)
slot not above `max_reasonable_current_slot`.  `none` models the `unwrap`
panic (and, for an empty deque, the `assert!`). -/
def RecentLeaderSlots.estimated_current_slot (recent_slots : List Nat) :
    Option Nat :=
  if recent_slots.isEmpty then
    none
  else
    let sorted := RecentLeaderSlots.sorted_copy recent_slots
    let ceiling := RecentLeaderSlots.max_reasonable_current_slot recent_slots
    sorted.reverse.find? (fun slot => slot ≤ ceiling)

/-- The value the spec says the estimator returns: a greatest element of the
collection among those not exceeding the ceiling.  (Stated as a predicate;
the refinement theorem compares the code path against it.) -/
def is_greatest_slot_le (recent_slots : List Nat) (ceiling result : Nat) : Prop :=
  result ∈ recent_slots ∧ result ≤ ceiling ∧
    ∀ slot ∈ recent_slots, slot ≤ ceiling → slot ≤ result

/-! ## Benchmark publisher sends (`src/price_store/benchmark1/price_publisher.rs`)

`start_all_price_updates` pushes one boxed future per pending completion into
`price_updates`.  The futures themselves perform the RPC or UDP send; here
only the list of pending sends created for one iteration is modelled.
Target TPU socket addresses are opaque and modelled as `Nat`. -/

/-- One pending completion pushed by `start_all_price_updates`: either the RPC
send of the chunk transaction or the UDP send of its serialized bytes to one
target node. -/
inductive PendingPriceUpdate where
  | rpcSend (chunk : List BufferedPrice)
  | udpSend (chunk : List BufferedPrice) (node_address : Nat)
deriving DecidableEq, Repr

/-- `const SEND_OVER_UDP: bool = false;` (hard-coded in
`start_all_price_updates`). -/
def SEND_OVER_UDP : Bool := false

/-- Rust `slice::chunks(chunk_size)`: split into consecutive chunks of
`chunk_size` elements, the last chunk possibly shorter.  `chunk_size = 0`
panics in Rust; it is mapped to the empty list (the publisher validates
`price_updates_per_tx` to `1..50`). -/
def rust_chunks (chunk_size : Nat) (l : List α) : List (List α) :=
  if chunk_size = 0 ∨ l.isEmpty then
    []
  else
    l.take chunk_size :: rust_chunks chunk_size (l.drop chunk_size)
termination_by l.length
decreasing_by
  simp only [not_or] at *
  rename_i h
  have hl : l ≠ [] := by
    intro hnil
    exact absurd (by simp [hnil]) h.2
  have : 0 < l.length := List.length_pos.mpr hl
  have hcs : 0 < chunk_size := Nat.pos_of_ne_zero h.1
  simp only [List.length_drop]
  omega

/-- The pending completions created by one call to `start_all_price_updates`,
given the prices generated for this iteration, `price_updates_per_tx`, and
the target TPU nodes.  Per chunk the loop pushes the RPC send and then, only
when `SEND_OVER_UDP` holds (the `if !SEND_OVER_UDP { continue; }` guard),
one UDP send per target node. -/
def start_all_price_updates (prices : List BufferedPrice)
    (price_updates_per_tx : Nat) (target_nodes : List Nat) :
    List PendingPriceUpdate :=
  (rust_chunks price_updates_per_tx prices).flatMap fun chunk =>
    PendingPriceUpdate.rpcSend chunk ::
      (if !SEND_OVER_UDP then []
       else target_nodes.map fun node_address =>
        PendingPriceUpdate.udpSend chunk node_address)

/-- The pending completions the spec calls for: per chunk, one RPC send and
one UDP send per target TPU node. -/
def spec_price_update_sends (prices : List BufferedPrice)
    (price_updates_per_tx : Nat) (target_nodes : List Nat) :
    List PendingPriceUpdate :=
  (rust_chunks price_updates_per_tx prices).flatMap fun chunk =>
    PendingPriceUpdate.rpcSend chunk ::
      target_nodes.map fun node_address =>
        PendingPriceUpdate.udpSend chunk node_address

/-! ## PriceSource (`src/price_store/benchmark1/price_source.rs`)

The `noise::Simplex` generator is an immutable struct of the external `noise`
crate whose `get` method is a pure function of the seed and the input point;
it is modelled as a function field fixed at construction.  The `f64`
arithmetic uses the Lean `Float` type (IEEE 754 binary64, as in Rust). -/

/-- `i64::MIN` as an `Int`. -/
def I64_MIN : Int := -(2 ^ 63)

/-- `i64::MAX` as an `Int`. -/
def I64_MAX : Int := 2 ^ 63 - 1

/-- Rust `f64 as i64` cast: `NaN` maps to 0, values are truncated toward zero
and saturated to the `i64` range. -/
def f64_as_i64 (x : Float) : Int :=
  if x.isNaN then 0
  else if x ≥ 9223372036854775808.0 then I64_MAX
  else if x ≤ -9223372036854775808.0 then I64_MIN
  else if x ≥ 0 then Int.ofNat x.toUInt64.toNat
  else -Int.ofNat (-x).toUInt64.toNat

/-- Rust `u64 as i64` cast (twos-complement reinterpretation). -/
def u64_as_i64 (n : Nat) : Int :=
  if n < 2 ^ 63 then (n : Int) else (n : Int) - 2 ^ 64

/-- Rust `i64::saturating_add`. -/
def i64_saturating_add (a b : Int) : Int :=
  max I64_MIN (min I64_MAX (a + b))

/-- Rust `i64 as u64` cast (twos-complement reinterpretation). -/
def i64_as_u64 (i : Int) : Nat := (i % 2 ^ 64).toNat

/-- `PriceSource`: configuration fields plus the simplex noise function fixed
by `Simplex::new(random())` at construction time. -/
structure PriceSource where
  price_feed_index : Nat
  price_mean : Int
  price_range : Nat
  confidence_mean : Nat
  confidence_range : Nat
  noise : Float → Float → Float

/-- `PriceSource::get`: `price = price_mean.saturating_add((price_range as f64
* noise.get([time, time * 0.5])) as i64)`; `confidence = ((confidence_mean as
i64).saturating_add((confidence_range as f64 * noise.get([time * 0.5, time]))
as i64).max(0)) as u64`. -/
def PriceSource.get (ps : PriceSource) (time : Float) : Int × Nat :=
  let price :=
    let offset := (Float.ofNat ps.price_range) * ps.noise time (time * 0.5)
    i64_saturating_add ps.price_mean (f64_as_i64 offset)
  let confidence :=
    let offset := (Float.ofNat ps.confidence_range) * ps.noise (time * 0.5) time
    i64_as_u64 (max (i64_saturating_add (u64_as_i64 ps.confidence_mean)
      (f64_as_i64 offset)) 0)
  (price, confidence)

/-! ## Transaction shepherd (`src/tx_sheppard.rs`)

The state owned by the shepherd (the `execution_status` vector, the
`FuturesUnordered` of in-flight sends, the `in_status_check` set and the two
terminal counters) is embedded as a record, and the execution loop as a step
function over externally chosen events (a send future resolving, a batched
status poll resolving).  Signatures are opaque and modelled as `Nat`; error
values are their display strings.  The `wait_start: Instant` field of
`WaitingConfirmation` is real time; the single comparison made on it
(`wait_start.elapsed() < 5 slots` in `status_absent`) is supplied as a
boolean with the `Absent` poll outcome, so all timings are covered.  State
transitions that panic in Rust (`panic!("Currently in ... state")`, vector
indexing out of bounds) return `none`.

As a ghost field, `send_attempt_count` records per index how many send
futures have ever been created (`send_one_tx` calls): the initial batch plus
every retry push. -/

/-- `TargetExecutionStatus` (minus the real-time `wait_start` field). -/
inductive TargetExecutionStatus where
  | Sending (retry_count : Nat)
  | WaitingConfirmation (retry_count : Nat) (signature : Nat)
      (confirmations : Option Nat)
  | Success
  | Failed (error : String)
deriving DecidableEq, Repr

/-- `TargetExecutionStatus::send_success`. -/
def TargetExecutionStatus.send_success (s : TargetExecutionStatus)
    (signature : Nat) : Option TargetExecutionStatus :=
  match s with
  | .Sending retry_count =>
      some (.WaitingConfirmation retry_count signature none)
  | _ => none

/-- `TargetExecutionStatus::send_failed`; the returned boolean says whether a
retry send is queued. -/
def TargetExecutionStatus.send_failed (s : TargetExecutionStatus)
    (error : String) : Option (TargetExecutionStatus × Bool) :=
  match s with
  | .Sending retry_count =>
      if retry_count > 0 then some (.Sending (retry_count - 1), true)
      else some (.Failed error, false)
  | _ => none

/-- `StatusAbsentAction`. -/
inductive StatusAbsentAction where
  | WaitMore
  | Retry
  | Failed
deriving DecidableEq, Repr

/-- `TargetExecutionStatus::status_absent`.  `elapsed_lt_max_absent` stands
for `wait_start.elapsed() < Duration::from_millis(MAX_ABSENT_SLOTS * 400)`. -/
def TargetExecutionStatus.status_absent (s : TargetExecutionStatus)
    (elapsed_lt_max_absent : Bool) :
    Option (TargetExecutionStatus × StatusAbsentAction) :=
  match s with
  | .WaitingConfirmation retry_count signature confirmations =>
      if elapsed_lt_max_absent then
        some (.WaitingConfirmation retry_count signature confirmations, .WaitMore)
      else if retry_count > 0 then
        some (.Sending (retry_count - 1), .Retry)
      else
        some
          (.Failed "Transaction not present in the chain even after 5 slots",
            .Failed)
  | _ => none

/-- `TargetExecutionStatus::status_success`. -/
def TargetExecutionStatus.status_success (s : TargetExecutionStatus) :
    Option TargetExecutionStatus :=
  match s with
  | .WaitingConfirmation _ _ _ => some .Success
  | _ => none

/-- `TargetExecutionStatus::status_pending`. -/
def TargetExecutionStatus.status_pending (s : TargetExecutionStatus)
    (new_confirmations : Nat) : Option TargetExecutionStatus :=
  match s with
  | .WaitingConfirmation retry_count signature _ =>
      some (.WaitingConfirmation retry_count signature (some new_confirmations))
  | _ => none

/-- `TargetExecutionStatus::status_failed`; the returned boolean says whether
a retry send is queued. -/
def TargetExecutionStatus.status_failed (s : TargetExecutionStatus)
    (error : String) : Option (TargetExecutionStatus × Bool) :=
  match s with
  | .WaitingConfirmation retry_count _ _ =>
      if retry_count > 0 then some (.Sending (retry_count - 1), true)
      else some (.Failed error, false)
  | _ => none

/-- `TxSendResult`. -/
inductive TxSendResult where
  | Success (idx : Nat) (signature : Nat)
  | Fail (idx : Nat) (error : String)
deriving DecidableEq, Repr

/-- The index a send result refers to. -/
def TxSendResult.idx : TxSendResult → Nat
  | .Success idx _ => idx
  | .Fail idx _ => idx

/-- `TxStatusResult`.  The `Absent` variant carries the time oracle consumed
by `status_absent`. -/
inductive TxStatusResult where
  | Success (idx : Nat)
  | Absent (idx : Nat) (elapsed_lt_max_absent : Bool)
  | Pending (idx : Nat) (confirmations : Nat)
  | Fail (idx : Nat) (error : String)
deriving DecidableEq, Repr

/-- The state owned by the execution loop of `run_impl`.  `sending_txs` holds the
indices with an in-flight send future; `in_status_check` is a set of indices
(a list without duplicates under `List.insert` / `List.erase`). -/
structure SheppardState where
  execution_status : List TargetExecutionStatus
  sending_txs : List Nat
  in_status_check : List Nat
  succeeded_count : Nat
  failed_count : Nat
  /-- Ghost: per index, the number of send futures ever created
  (`send_one_tx` calls). -/
  send_attempt_count : List Nat
deriving DecidableEq, Repr

/-- Push a retry send future for `idx` (`sending_txs.push(send_one_tx(...))`),
bumping the ghost attempt counter. -/
def SheppardState.queue_send (st : SheppardState) (idx : Nat) : SheppardState :=
  { st with
    sending_txs := st.sending_txs ++ [idx]
    send_attempt_count :=
      st.send_attempt_count.set idx (st.send_attempt_count.getD idx 0 + 1) }

/-- `apply_send_result` (the completed future was already removed from
`sending_txs` by the loop; see `sheppard_step`). -/
def SheppardState.apply_send_result (st : SheppardState)
    (send_result : TxSendResult) : Option SheppardState :=
  match send_result with
  | .Success idx signature =>
      if idx < st.execution_status.length then do
        let s ← (st.execution_status.getD idx (.Sending 0)).send_success signature
        some
          { st with
            execution_status := st.execution_status.set idx s
            in_status_check := st.in_status_check.insert idx }
      else none
  | .Fail idx error =>
      if idx < st.execution_status.length then do
        let (s, retry) ← (st.execution_status.getD idx (.Sending 0)).send_failed error
        let st' := { st with execution_status := st.execution_status.set idx s }
        some (if retry then st'.queue_send idx else st')
      else none

/-- One entry of the loop inside `apply_status_result`. -/
def SheppardState.apply_status_one (st : SheppardState)
    (status_result : TxStatusResult) : Option SheppardState :=
  match status_result with
  | .Success idx =>
      if idx < st.execution_status.length then do
        let s ← (st.execution_status.getD idx (.Sending 0)).status_success
        some
          { st with
            in_status_check := st.in_status_check.erase idx
            execution_status := st.execution_status.set idx s
            succeeded_count := st.succeeded_count + 1 }
      else none
  | .Absent idx elapsed_lt_max_absent =>
      if idx < st.execution_status.length then do
        let (s, action) ←
          (st.execution_status.getD idx (.Sending 0)).status_absent
            elapsed_lt_max_absent
        let st' := { st with execution_status := st.execution_status.set idx s }
        match action with
        | .WaitMore => some st'
        | .Retry =>
            some (SheppardState.queue_send
              { st' with in_status_check := st'.in_status_check.erase idx } idx)
        | .Failed =>
            some
              { st' with
                in_status_check := st'.in_status_check.erase idx
                failed_count := st'.failed_count + 1 }
      else none
  | .Pending idx confirmations =>
      if idx < st.execution_status.length then do
        let s ← (st.execution_status.getD idx (.Sending 0)).status_pending
          confirmations
        some { st with execution_status := st.execution_status.set idx s }
      else none
  | .Fail idx error =>
      if idx < st.execution_status.length then do
        let (s, retry) ← (st.execution_status.getD idx (.Sending 0)).status_failed
          error
        let st' :=
          { st with
            execution_status := st.execution_status.set idx s
            in_status_check := st.in_status_check.erase idx }
        some (if retry then st'.queue_send idx
          else { st' with failed_count := st'.failed_count + 1 })
      else none

/-- `apply_status_result`: apply a batch of status poll results in order. -/
def SheppardState.apply_status_result (st : SheppardState)
    (status_results : List TxStatusResult) : Option SheppardState :=
  status_results.foldlM SheppardState.apply_status_one st

/-- An external event resolving one arm of the `select!` in the loop: a send
future completing (which `FuturesUnordered::next` removes from
`sending_txs`), or the batched status poll completing.  The UI-timer and
refresh-task arms do not touch the embedded state. -/
inductive SheppardEvent where
  | sendResult (send_result : TxSendResult)
  | statusResults (status_results : List TxStatusResult)
deriving DecidableEq, Repr

/-- One iteration of the execution loop on the given event. -/
def sheppard_step (st : SheppardState) (event : SheppardEvent) :
    Option SheppardState :=
  match event with
  | .sendResult send_result =>
      if send_result.idx ∈ st.sending_txs then
        SheppardState.apply_send_result
          { st with sending_txs := st.sending_txs.erase send_result.idx }
          send_result
      else none
  | .statusResults status_results => st.apply_status_result status_results

/-- The loop state right after initialization in `run_impl`: one
`Sending { retry_count }` per builder, one in-flight send per builder, empty
status-check set, zero counters. -/
def sheppard_init (retry_count : Nat) (tx_builder_count : Nat) : SheppardState :=
  { execution_status :=
      List.replicate tx_builder_count (.Sending retry_count)
    sending_txs := List.range tx_builder_count
    in_status_check := []
    succeeded_count := 0
    failed_count := 0
    send_attempt_count := List.replicate tx_builder_count 1 }

/-- Run the execution loop from the initial state over a sequence of events.
`none` means some event hit a `panic!` path. -/
def sheppard_run (retry_count tx_builder_count : Nat)
    (events : List SheppardEvent) : Option SheppardState :=
  events.foldlM sheppard_step (sheppard_init retry_count tx_builder_count)

/-- The exit condition of the `while` loop in `run_impl`:
`sending_txs.is_empty() && in_status_check.is_empty()`. -/
def sheppard_loop_exited (st : SheppardState) : Prop :=
  st.sending_txs = [] ∧ st.in_status_check = []

/-- The retry budget still stored in a status (`retry_count` field of the
non-terminal variants). -/
def TargetExecutionStatus.retries_left : TargetExecutionStatus → Nat
  | .Sending retry_count => retry_count
  | .WaitingConfirmation retry_count _ _ => retry_count
  | .Success => 0
  | .Failed _ => 0

/-- Invariant tying the ghost attempt counters to the remaining retry
budgets: every index has been attempted at least once, and the attempts made
plus the remaining budget never exceed `retry_count + 1`. -/
def attempts_ok (R : Nat) (statuses : List TargetExecutionStatus)
    (attempts : List Nat) : Prop :=
  attempts.length = statuses.length ∧
  ∀ idx, idx < statuses.length →
    1 ≤ attempts.getD idx 0 ∧
    attempts.getD idx 0 +
      (statuses.getD idx (.Sending 0)).retries_left ≤ R + 1

/-! ## Theorems -/

/-- Claim C4, counterexample: the claim (and the worked example in the spec)
states that packing Trading (1) with feed index 0x0ABCDEF yields
`trading_status_and_feed_index = 0x1ABCDEF`, but `(1 << 28) | 0x0ABCDEF` is
`0x10ABCDEF` (the constant `0x1ABCDEF` instead places the status bit at bit
24): `BufferedPrice::new` returns `0x10ABCDEF`, which differs from
`0x1ABCDEF`. -/
theorem buffered_price_pack_example_counterexample :
    BufferedPrice.new .Trading 0x0ABCDEF (-42) 7 =
      some
        { trading_status_and_feed_index := 0x10ABCDEF
          price := -42
          confidence := 7 } ∧
    (0x10ABCDEF : Nat) ≠ 0x1ABCDEF := by
  decide

/-- Claim C4, amended: for trading_status = Trading (1), feed_index =
0x0ABCDEF, price = -42, confidence = 7, `BufferedPrice::new` returns a
record whose `trading_status_and_feed_index` equals
`(1 << 28) | 0x0ABCDEF = 0x10ABCDEF` and whose price and confidence are -42
and 7; decoding the high 4 bits and the low 28 bits yields back
(1, 0x0ABCDEF, -42, 7). -/
theorem buffered_price_pack_example_amended :
    BufferedPrice.new .Trading 0x0ABCDEF (-42) 7 =
      some
        { trading_status_and_feed_index := 0x10ABCDEF
          price := -42
          confidence := 7 } ∧
    (1 <<< 28) ||| 0x0ABCDEF = 0x10ABCDEF ∧
    decode_trading_status 0x10ABCDEF = 1 ∧
    decode_feed_index 0x10ABCDEF = 0x0ABCDEF := by
  decide

/-- Claim C8: `BlockhashCache::refresh` returns `Ok` exactly when the
underlying `get_latest_blockhash` RPC call succeeds, and an RPC success
returning a hash identical to the stored value yields `Ok` while leaving the
stored value unchanged. -/
theorem blockhash_refresh_error_iff (stored : Blockhash)
    (rpc_result : Except String Blockhash) :
    ((BlockhashCache.refresh stored rpc_result).1 = .ok () ↔
      ∃ h, rpc_result = .ok h) ∧
    (BlockhashCache.refresh stored (.ok stored)).1 = .ok () ∧
    (BlockhashCache.refresh stored (.ok stored)).2 = stored := by
  refine ⟨?_, by simp [BlockhashCache.refresh], by simp [BlockhashCache.refresh]⟩
  cases rpc_result with
  | error e => simp [BlockhashCache.refresh]
  | ok h =>
      by_cases hsame : stored = h <;> simp [BlockhashCache.refresh, hsame]

/-- Claim C7, counterexample: `init` can return (here with stored hash 5),
and one later `refresh` whose RPC call succeeds with the default (zero) hash
overwrites the stored value with zero, so a subsequent `get()` returns the
zero value. -/
theorem blockhash_zero_after_init_counterexample :
    BlockhashCache.init 0 [.ok 5] = some 5 ∧
    BlockhashCache.refresh_seq 5 [.ok 0] = 0 := by
  decide

/-- If `BlockhashCache::init` returns, the stored hash is non-zero. -/
theorem blockhash_init_ne_zero (stored : Blockhash)
    (rpc_results : List (Except String Blockhash)) (h : Blockhash)
    (hinit : BlockhashCache.init stored rpc_results = some h) : h ≠ 0 := by
  induction rpc_results generalizing stored with
  | nil => simp [BlockhashCache.init] at hinit
  | cons r rs ih =>
      simp only [BlockhashCache.init] at hinit
      split at hinit
      · next hne => cases hinit; exact hne
      · exact ih _ hinit

/-- Claim C7, amended: after `init` returns, every subsequent `get()` returns
a non-zero value, provided no subsequent successful refresh RPC reports the
zero (default) blockhash. -/
theorem blockhash_nonzero_after_init (stored₀ h : Blockhash)
    (init_results later_results : List (Except String Blockhash))
    (hinit : BlockhashCache.init stored₀ init_results = some h)
    (hlater : ∀ r ∈ later_results, r ≠ .ok 0) :
    BlockhashCache.refresh_seq h later_results ≠ 0 := by
  have hh : h ≠ 0 := blockhash_init_ne_zero stored₀ init_results h hinit
  clear hinit
  induction later_results generalizing h with
  | nil => simpa [BlockhashCache.refresh_seq] using hh
  | cons r rs ih =>
      simp only [BlockhashCache.refresh_seq, List.foldl_cons] at *
      refine ih _ (fun r' hr' => hlater r' (List.mem_cons_of_mem _ hr')) ?_
      cases r with
      | error e => simpa [BlockhashCache.refresh] using hh
      | ok v =>
          have hv : v ≠ 0 := by
            intro hv0
            exact hlater (.ok v) (List.mem_cons_self _ _) (by rw [hv0])
          by_cases hsame : h = v <;>
            simp [BlockhashCache.refresh, hsame, hh, hv]

/-- Witness for `blockhash_nonzero_after_init` at a concrete run. -/
theorem blockhash_nonzero_after_init_witness :
    BlockhashCache.refresh_seq 5 [.ok 7, .error "boom"] ≠ 0 :=
  blockhash_nonzero_after_init 0 5 [.ok 5] [.ok 7, .error "boom"]
    (by decide) (by simp)

/-- Claim C3, failing input: with the last successful cluster refresh at
time 0 ms and loop iterations at 1000 ms and 2000 ms, the code issues the
`get_cluster_nodes` RPC at both iterations (two fetches one second apart),
and conversely it does not fetch when 6 minutes have elapsed.  The guard
`last_cluster_refresh.elapsed() <= Duration::from_secs(5 * 60)` is inverted
with respect to both the specification and the comment above it in the
source. -/
theorem cluster_nodes_fetch_condition_inverted :
    cluster_fetch_times 0 [1000, 2000] = [1000, 2000] ∧
    should_fetch_cluster_nodes 1000 = true ∧
    should_fetch_cluster_nodes (6 * 60 * 1000) = false := by
  decide

/-- Claim C2, failing input: `SEND_OVER_UDP` is hard-coded to `false`, so
`start_all_price_updates` never enqueues a UDP send: for every input the
pending-completion list contains no `udpSend` entry, and on a one-chunk,
one-target-node input the code produces only the RPC send while the spec
calls for an RPC send plus a UDP send. -/
theorem start_all_price_updates_no_udp :
    (∀ (prices : List BufferedPrice) (price_updates_per_tx : Nat)
        (target_nodes : List Nat),
        (start_all_price_updates prices price_updates_per_tx
            target_nodes).countP
          (fun u => match u with | .udpSend _ _ => true | _ => false) = 0) ∧
    start_all_price_updates
        [{ trading_status_and_feed_index := 0x1ABCDEF, price := -42,
           confidence := 7 }] 10 [7] =
      [.rpcSend
        [{ trading_status_and_feed_index := 0x1ABCDEF, price := -42,
           confidence := 7 }]] ∧
    spec_price_update_sends
        [{ trading_status_and_feed_index := 0x1ABCDEF, price := -42,
           confidence := 7 }] 10 [7] =
      [.rpcSend
        [{ trading_status_and_feed_index := 0x1ABCDEF, price := -42,
           confidence := 7 }],
       .udpSend
        [{ trading_status_and_feed_index := 0x1ABCDEF, price := -42,
           confidence := 7 }] 7] := by
  refine ⟨fun prices price_updates_per_tx target_nodes => ?_, ?_, ?_⟩
  · simp only [start_all_price_updates, SEND_OVER_UDP, Bool.not_false,
      if_true, List.countP_eq_zero]
    intro u hu
    simp only [List.mem_flatMap, List.mem_cons, List.not_mem_nil, or_false]
      at hu
    obtain ⟨chunk, -, rfl⟩ := hu
    simp
  · simp [start_all_price_updates, SEND_OVER_UDP, rust_chunks]
  · simp [spec_price_update_sends, rust_chunks]

/-- Claim C9: `PriceSource::get` is deterministic: any two `PriceSource`
values with the same configuration and the same seeded noise function return
the identical (price, confidence) pair at every time `t` (the feed index is
not even consulted). -/
theorem price_source_get_deterministic (ps ps' : PriceSource) (t : Float)
    (h1 : ps.price_mean = ps'.price_mean)
    (h2 : ps.price_range = ps'.price_range)
    (h3 : ps.confidence_mean = ps'.confidence_mean)
    (h4 : ps.confidence_range = ps'.confidence_range)
    (h5 : ps.noise = ps'.noise) :
    ps.get t = ps'.get t := by
  simp [PriceSource.get, h1, h2, h3, h4, h5]

/-- Witness for `price_source_get_deterministic`: two sources differing only
in the feed index produce the same output. -/
theorem price_source_get_deterministic_witness :
    PriceSource.get
        { price_feed_index := 0, price_mean := 3, price_range := 2
          confidence_mean := 5, confidence_range := 1
          noise := fun _ _ => 0 } 1.5 =
      PriceSource.get
        { price_feed_index := 1, price_mean := 3, price_range := 2
          confidence_mean := 5, confidence_range := 1
          noise := fun _ _ => 0 } 1.5 :=
  price_source_get_deterministic _ _ _ rfl rfl rfl rfl rfl

/-- The sorted copy is a permutation of the deque contents. -/
theorem sorted_copy_perm (recent_slots : List Nat) :
    (RecentLeaderSlots.sorted_copy recent_slots).Perm recent_slots :=
  List.mergeSort_perm recent_slots _

/-- The sorted copy is ascending. -/
theorem sorted_copy_pairwise (recent_slots : List Nat) :
    (RecentLeaderSlots.sorted_copy recent_slots).Pairwise (fun a b => a ≤ b) := by
  have h :=
    @List.sorted_mergeSort Nat (fun a b => decide (a ≤ b))
      (fun a b c hab hbc => by
        simp only [decide_eq_true_eq] at *
        omega)
      (fun a b => by
        simp only [Bool.or_eq_true, decide_eq_true_eq]
        omega)
      recent_slots
  exact h.imp (by intro a b hab; simpa using hab)

/-- In a descending list, `find?` of "at most `c`" returns an upper bound of
all elements that are at most `c`. -/
theorem find_first_le_is_greatest {l : List Nat} {c r : Nat}
    (hsorted : l.Pairwise (fun a b => b ≤ a))
    (hfind : l.find? (fun slot => slot ≤ c) = some r) :
    ∀ x ∈ l, x ≤ c → x ≤ r := by
  induction l with
  | nil => simp at hfind
  | cons a t ih =>
      rw [List.find?_cons] at hfind
      rcases List.pairwise_cons.mp hsorted with ⟨ha, ht⟩
      by_cases hac : a ≤ c
      · rw [show (decide (a ≤ c)) = true by simpa using hac] at hfind
        simp only [] at hfind
        cases hfind
        intro x hx _
        rcases List.mem_cons.mp hx with rfl | hxt
        · exact le_refl _
        · exact ha x hxt
      · rw [show (decide (a ≤ c)) = false by simpa using hac] at hfind
        simp only [] at hfind
        intro x hx hxc
        rcases List.mem_cons.mp hx with rfl | hxt
        · exact absurd hxc hac
        · exact ih ht hfind x hxt hxc

/-- Without `u64` overflow the wrapped ceiling equals the plain sum. -/
theorem max_reasonable_of_no_overflow (recent_slots : List Nat)
    (hno : RecentLeaderSlots.ceiling_no_overflow recent_slots) :
    RecentLeaderSlots.max_reasonable_current_slot recent_slots =
      (RecentLeaderSlots.sorted_copy recent_slots).getD
          (((RecentLeaderSlots.sorted_copy recent_slots).length - 1) / 2) 0 +
        (((RecentLeaderSlots.sorted_copy recent_slots).length - 1) -
          ((RecentLeaderSlots.sorted_copy recent_slots).length - 1) / 2) +
        MAX_SLOT_SKIP_DISTANCE := by
  simp only [RecentLeaderSlots.ceiling_no_overflow] at hno
  simp only [RecentLeaderSlots.max_reasonable_current_slot]
  rw [Nat.mod_eq_of_lt (by omega), Nat.mod_eq_of_lt (by omega)]

/-- For a non-empty deque whose ceiling computation does not wrap, the
estimator returns a value, and that value is a greatest observed slot among
those not exceeding `max_reasonable_current_slot`. -/
theorem estimated_current_slot_spec (recent_slots : List Nat)
    (h : recent_slots ≠ [])
    (hno : RecentLeaderSlots.ceiling_no_overflow recent_slots) :
    ∃ r, RecentLeaderSlots.estimated_current_slot recent_slots = some r ∧
      is_greatest_slot_le recent_slots
        (RecentLeaderSlots.max_reasonable_current_slot recent_slots) r := by
  have hne : ¬recent_slots.isEmpty := by
    simpa [List.isEmpty_iff] using h
  have hperm := sorted_copy_perm recent_slots
  have hpos : 0 < (RecentLeaderSlots.sorted_copy recent_slots).length := by
    rw [hperm.length_eq]
    exact List.length_pos.mpr h
  have hmedian_lt :
      ((RecentLeaderSlots.sorted_copy recent_slots).length - 1) / 2 <
        (RecentLeaderSlots.sorted_copy recent_slots).length := by
    omega
  have hmedian_mem :
      (RecentLeaderSlots.sorted_copy recent_slots).getD
          (((RecentLeaderSlots.sorted_copy recent_slots).length - 1) / 2) 0 ∈
        RecentLeaderSlots.sorted_copy recent_slots := by
    rw [List.getD_eq_getElem _ _ hmedian_lt]
    exact List.getElem_mem hmedian_lt
  have hmedian_le :
      (RecentLeaderSlots.sorted_copy recent_slots).getD
          (((RecentLeaderSlots.sorted_copy recent_slots).length - 1) / 2) 0 ≤
        RecentLeaderSlots.max_reasonable_current_slot recent_slots := by
    rw [max_reasonable_of_no_overflow recent_slots hno]
    omega
  have hsome :
      ((RecentLeaderSlots.sorted_copy recent_slots).reverse.find?
        (fun slot =>
          slot ≤ RecentLeaderSlots.max_reasonable_current_slot
            recent_slots)).isSome := by
    rw [List.find?_isSome]
    exact ⟨_, List.mem_reverse.mpr hmedian_mem, by simpa using hmedian_le⟩
  obtain ⟨r, hr⟩ := Option.isSome_iff_exists.mp hsome
  have hres : RecentLeaderSlots.estimated_current_slot recent_slots = some r := by
    unfold RecentLeaderSlots.estimated_current_slot
    rw [if_neg hne]
    exact hr
  refine ⟨r, hres, ?_, ?_, ?_⟩
  · exact hperm.mem_iff.mp (List.mem_reverse.mp (List.mem_of_find?_eq_some hr))
  · simpa using List.find?_some hr
  · intro slot hslot hslot_le
    refine find_first_le_is_greatest ?_ hr slot ?_ hslot_le
    · exact List.pairwise_reverse.mpr (sorted_copy_pairwise recent_slots)
    · exact List.mem_reverse.mpr (hperm.mem_iff.mpr hslot)

/-- Claim C6, counterexample: on the non-empty collection
`[u64::MAX, u64::MAX - 1]` the `u64` ceiling computation wraps (release
profile) to 47, the descending search finds no slot at all and the final
`unwrap` panics (in a debug profile the addition itself panics), so the
estimator does not return the greatest observed slot below the ceiling for
every non-empty collection. -/
theorem estimated_current_slot_greatest_le_counterexample :
    RecentLeaderSlots.estimated_current_slot [2 ^ 64 - 1, 2 ^ 64 - 2] =
      none ∧
    ([2 ^ 64 - 1, 2 ^ 64 - 2] : List Nat) ≠ [] := by
  have hsort : RecentLeaderSlots.sorted_copy [2 ^ 64 - 1, 2 ^ 64 - 2] =
      [2 ^ 64 - 2, 2 ^ 64 - 1] := by
    simp [RecentLeaderSlots.sorted_copy, List.mergeSort]
  refine ⟨?_, by simp⟩
  rw [RecentLeaderSlots.estimated_current_slot,
    RecentLeaderSlots.max_reasonable_current_slot, hsort]
  decide

/-- Claim C6, amended: for every non-empty RecentSlots collection whose
ceiling computation `sorted[median_index] + (max_index - median_index) + 48`
does not overflow `u64`, the estimator returns the greatest observed slot
not exceeding that ceiling; on the observed slots
[100, 150, 120, 130, 140, 125, 135, 200000, 145, 128, 132, 138] the ceiling
is 186 and the result is 150. -/
theorem estimated_current_slot_greatest_le (recent_slots : List Nat)
    (h : recent_slots ≠ [])
    (hno : RecentLeaderSlots.ceiling_no_overflow recent_slots) :
    (∃ r, RecentLeaderSlots.estimated_current_slot recent_slots = some r ∧
      is_greatest_slot_le recent_slots
        (RecentLeaderSlots.max_reasonable_current_slot recent_slots) r) ∧
    RecentLeaderSlots.max_reasonable_current_slot
        [100, 150, 120, 130, 140, 125, 135, 200000, 145, 128, 132, 138] =
      186 ∧
    RecentLeaderSlots.estimated_current_slot
        [100, 150, 120, 130, 140, 125, 135, 200000, 145, 128, 132, 138] =
      some 150 := by
  have hsort : RecentLeaderSlots.sorted_copy
      [100, 150, 120, 130, 140, 125, 135, 200000, 145, 128, 132, 138] =
      [100, 120, 125, 128, 130, 132, 135, 138, 140, 145, 150, 200000] := by
    simp [RecentLeaderSlots.sorted_copy, List.mergeSort]
  refine ⟨estimated_current_slot_spec recent_slots h hno, ?_, ?_⟩
  · rw [RecentLeaderSlots.max_reasonable_current_slot, hsort]
    decide
  · rw [RecentLeaderSlots.estimated_current_slot,
      RecentLeaderSlots.max_reasonable_current_slot, hsort]
    decide

/-- Witness for `estimated_current_slot_greatest_le` at the literal
collection of the spec. -/
theorem estimated_current_slot_greatest_le_witness :
    (∃ r, RecentLeaderSlots.estimated_current_slot
        [100, 150, 120, 130, 140, 125, 135, 200000, 145, 128, 132, 138] =
          some r ∧
      is_greatest_slot_le
        [100, 150, 120, 130, 140, 125, 135, 200000, 145, 128, 132, 138]
        (RecentLeaderSlots.max_reasonable_current_slot
          [100, 150, 120, 130, 140, 125, 135, 200000, 145, 128, 132, 138])
        r) ∧
    RecentLeaderSlots.max_reasonable_current_slot
        [100, 150, 120, 130, 140, 125, 135, 200000, 145, 128, 132, 138] =
      186 ∧
    RecentLeaderSlots.estimated_current_slot
        [100, 150, 120, 130, 140, 125, 135, 200000, 145, 128, 132, 138] =
      some 150 :=
  estimated_current_slot_greatest_le
    [100, 150, 120, 130, 140, 125, 135, 200000, 145, 128, 132, 138]
    (by decide)
    (by
      simp only [RecentLeaderSlots.ceiling_no_overflow,
        show RecentLeaderSlots.sorted_copy
            [100, 150, 120, 130, 140, 125, 135, 200000, 145, 128, 132, 138] =
            [100, 120, 125, 128, 130, 132, 135, 138, 140, 145, 150, 200000]
          from by simp [RecentLeaderSlots.sorted_copy, List.mergeSort]]
      decide)

/-- Claim C10, counterexample: on the non-empty singleton collection
`[u64::MAX]` the `u64` ceiling computation wraps (release profile) to 47,
the descending search finds no slot and the final `unwrap` panics (in a
debug profile the addition itself panics): the estimator is not total on
non-empty collections, because the sorted median element can exceed the
wrapped ceiling. -/
theorem estimated_current_slot_not_total :
    RecentLeaderSlots.estimated_current_slot [2 ^ 64 - 1] = none ∧
    ([2 ^ 64 - 1] : List Nat) ≠ [] := by
  have hsort : RecentLeaderSlots.sorted_copy [2 ^ 64 - 1] = [2 ^ 64 - 1] := by
    simp [RecentLeaderSlots.sorted_copy, List.mergeSort]
  refine ⟨?_, by simp⟩
  rw [RecentLeaderSlots.estimated_current_slot,
    RecentLeaderSlots.max_reasonable_current_slot, hsort]
  decide

/-- Claim C10, amended: for every non-empty RecentSlots collection whose
ceiling computation does not overflow `u64`, the estimator is total (the
final `unwrap` never panics, since the sorted median element is then at most
the computed ceiling) and the returned value is one of the observed slots. -/
theorem estimated_current_slot_total (recent_slots : List Nat)
    (h : recent_slots ≠ [])
    (hno : RecentLeaderSlots.ceiling_no_overflow recent_slots) :
    ∃ r, RecentLeaderSlots.estimated_current_slot recent_slots = some r ∧
      r ∈ recent_slots := by
  obtain ⟨r, hr, hmem, -, -⟩ := estimated_current_slot_spec recent_slots h hno
  exact ⟨r, hr, hmem⟩

/-- Witness for `estimated_current_slot_total`. -/
theorem estimated_current_slot_total_witness :
    ∃ r, RecentLeaderSlots.estimated_current_slot [100, 200000] = some r ∧
      r ∈ [100, 200000] :=
  estimated_current_slot_total [100, 200000] (by decide)
    (by
      simp only [RecentLeaderSlots.ceiling_no_overflow,
        show RecentLeaderSlots.sorted_copy [100, 200000] = [100, 200000]
          from by simp [RecentLeaderSlots.sorted_copy, List.mergeSort]]
      decide)

/-- `getD` after `set` at the same (in-bounds) index. -/
theorem getD_set_self {α : Type _} (l : List α) (i : Nat) (v d : α)
    (h : i < l.length) : (l.set i v).getD i d = v := by
  rw [List.getD_eq_getElem?_getD, List.getElem?_set]
  simp [h]

/-- `getD` after `set` at a different index. -/
theorem getD_set_of_ne {α : Type _} (l : List α) {i j : Nat} (v d : α)
    (h : i ≠ j) : (l.set i v).getD j d = l.getD j d := by
  rw [List.getD_eq_getElem?_getD, List.getElem?_set,
    List.getD_eq_getElem?_getD]
  simp [h]

/-- `getD` on a `replicate` at an in-bounds index. -/
theorem getD_replicate_lt {α : Type _} (n i : Nat) (v d : α) (h : i < n) :
    (List.replicate n v).getD i d = v := by
  simp [List.getD_eq_getElem?_getD, List.getElem?_replicate, h]

/-- `send_success` keeps the retry budget. -/
theorem send_success_retries {s s' : TargetExecutionStatus} {sig : Nat}
    (h : s.send_success sig = some s') :
    s'.retries_left = s.retries_left := by
  cases s with
  | Sending rc =>
      simp only [TargetExecutionStatus.send_success, Option.some.injEq] at h
      subst h
      rfl
  | WaitingConfirmation rc sg c =>
      simp [TargetExecutionStatus.send_success] at h
  | Success => simp [TargetExecutionStatus.send_success] at h
  | Failed e => simp [TargetExecutionStatus.send_success] at h

/-- `send_failed` decrements the budget when it queues a retry, and never
increases it. -/
theorem send_failed_retries {s s' : TargetExecutionStatus} {e : String}
    {retry : Bool} (h : s.send_failed e = some (s', retry)) :
    (retry = true → s'.retries_left + 1 ≤ s.retries_left) ∧
    (retry = false → s'.retries_left ≤ s.retries_left) := by
  cases s with
  | Sending rc =>
      simp only [TargetExecutionStatus.send_failed] at h
      split at h <;>
        · simp only [Option.some.injEq, Prod.mk.injEq] at h
          obtain ⟨rfl, rfl⟩ := h
          simp [TargetExecutionStatus.retries_left] <;> omega
  | WaitingConfirmation rc sg c =>
      simp [TargetExecutionStatus.send_failed] at h
  | Success => simp [TargetExecutionStatus.send_failed] at h
  | Failed err => simp [TargetExecutionStatus.send_failed] at h

/-- `status_absent` decrements the budget when it asks for a retry, and
never increases it. -/
theorem status_absent_retries {s s' : TargetExecutionStatus} {b : Bool}
    {a : StatusAbsentAction} (h : s.status_absent b = some (s', a)) :
    (a = .Retry → s'.retries_left + 1 ≤ s.retries_left) ∧
    (a ≠ .Retry → s'.retries_left ≤ s.retries_left) := by
  cases s with
  | WaitingConfirmation rc sg c =>
      simp only [TargetExecutionStatus.status_absent] at h
      split at h
      · simp only [Option.some.injEq, Prod.mk.injEq] at h
        obtain ⟨rfl, rfl⟩ := h
        simp [TargetExecutionStatus.retries_left]
      · split at h <;>
          · simp only [Option.some.injEq, Prod.mk.injEq] at h
            obtain ⟨rfl, rfl⟩ := h
            simp [TargetExecutionStatus.retries_left] <;> omega
  | Sending rc => simp [TargetExecutionStatus.status_absent] at h
  | Success => simp [TargetExecutionStatus.status_absent] at h
  | Failed err => simp [TargetExecutionStatus.status_absent] at h

/-- `status_success` zeroes the budget. -/
theorem status_success_retries {s s' : TargetExecutionStatus}
    (h : s.status_success = some s') :
    s'.retries_left ≤ s.retries_left := by
  cases s with
  | WaitingConfirmation rc sg c =>
      simp only [TargetExecutionStatus.status_success, Option.some.injEq] at h
      subst h
      simp [TargetExecutionStatus.retries_left]
  | Sending rc => simp [TargetExecutionStatus.status_success] at h
  | Success => simp [TargetExecutionStatus.status_success] at h
  | Failed err => simp [TargetExecutionStatus.status_success] at h

/-- `status_pending` keeps the budget. -/
theorem status_pending_retries {s s' : TargetExecutionStatus} {c : Nat}
    (h : s.status_pending c = some s') :
    s'.retries_left = s.retries_left := by
  cases s with
  | WaitingConfirmation rc sg cf =>
      simp only [TargetExecutionStatus.status_pending, Option.some.injEq] at h
      subst h
      rfl
  | Sending rc => simp [TargetExecutionStatus.status_pending] at h
  | Success => simp [TargetExecutionStatus.status_pending] at h
  | Failed err => simp [TargetExecutionStatus.status_pending] at h

/-- `status_failed` decrements the budget when it queues a retry, and never
increases it. -/
theorem status_failed_retries {s s' : TargetExecutionStatus} {e : String}
    {retry : Bool} (h : s.status_failed e = some (s', retry)) :
    (retry = true → s'.retries_left + 1 ≤ s.retries_left) ∧
    (retry = false → s'.retries_left ≤ s.retries_left) := by
  cases s with
  | WaitingConfirmation rc sg c =>
      simp only [TargetExecutionStatus.status_failed] at h
      split at h <;>
        · simp only [Option.some.injEq, Prod.mk.injEq] at h
          obtain ⟨rfl, rfl⟩ := h
          simp [TargetExecutionStatus.retries_left] <;> omega
  | Sending rc => simp [TargetExecutionStatus.status_failed] at h
  | Success => simp [TargetExecutionStatus.status_failed] at h
  | Failed err => simp [TargetExecutionStatus.status_failed] at h

/-- The invariant holds at initialization. -/
theorem attempts_ok_init (R n : Nat) :
    attempts_ok R (List.replicate n (.Sending R)) (List.replicate n 1) := by
  refine ⟨by simp, ?_⟩
  intro idx hidx
  simp only [List.length_replicate] at hidx
  rw [getD_replicate_lt _ _ _ _ hidx, getD_replicate_lt _ _ _ _ hidx]
  simp only [TargetExecutionStatus.retries_left]
  omega

/-- Updating one status without queueing a send preserves the invariant
whenever the budget does not grow. -/
theorem attempts_ok_set (R : Nat) {statuses : List TargetExecutionStatus}
    {attempts : List Nat} (i : Nat) (s : TargetExecutionStatus)
    (h : attempts_ok R statuses attempts) (hi : i < statuses.length)
    (hs : s.retries_left ≤ (statuses.getD i (.Sending 0)).retries_left) :
    attempts_ok R (statuses.set i s) attempts := by
  obtain ⟨hlen, hall⟩ := h
  refine ⟨by simpa using hlen, ?_⟩
  intro idx hidx
  rw [List.length_set] at hidx
  by_cases hij : i = idx
  · subst hij
    rw [getD_set_self _ _ _ _ hi]
    have := hall i hi
    omega
  · rw [getD_set_of_ne _ _ _ hij]
    exact hall idx hidx

/-- Updating one status while queueing one more send preserves the invariant
whenever the budget strictly decreases. -/
theorem attempts_ok_set_queue (R : Nat)
    {statuses : List TargetExecutionStatus} {attempts : List Nat} (i : Nat)
    (s : TargetExecutionStatus) (h : attempts_ok R statuses attempts)
    (hi : i < statuses.length)
    (hs : s.retries_left + 1 ≤ (statuses.getD i (.Sending 0)).retries_left) :
    attempts_ok R (statuses.set i s)
      (attempts.set i (attempts.getD i 0 + 1)) := by
  obtain ⟨hlen, hall⟩ := h
  refine ⟨by simp [hlen], ?_⟩
  intro idx hidx
  rw [List.length_set] at hidx
  by_cases hij : i = idx
  · subst hij
    rw [getD_set_self _ _ _ _ hi,
      getD_set_self _ _ _ _ (by omega : i < attempts.length)]
    have := hall i hi
    omega
  · rw [getD_set_of_ne _ _ _ hij, getD_set_of_ne _ _ _ hij]
    exact hall idx hidx

/-- `apply_send_result` preserves the attempts invariant. -/
theorem apply_send_result_attempts_ok {R : Nat} {st st' : SheppardState}
    {r : TxSendResult}
    (h : attempts_ok R st.execution_status st.send_attempt_count)
    (hstep : st.apply_send_result r = some st') :
    attempts_ok R st'.execution_status st'.send_attempt_count ∧
    st'.execution_status.length = st.execution_status.length := by
  cases r with
  | Success idx signature =>
      simp only [SheppardState.apply_send_result, Option.bind_eq_bind] at hstep
      split at hstep
      next hidx =>
        rcases Option.bind_eq_some.mp hstep with ⟨s, hs, hst'⟩
        simp only [Option.some.injEq] at hst'
        subst hst'
        exact ⟨attempts_ok_set R idx s h hidx
          (le_of_eq (send_success_retries hs)), by simp⟩
      next => simp at hstep
  | Fail idx error =>
      simp only [SheppardState.apply_send_result, Option.bind_eq_bind] at hstep
      split at hstep
      next hidx =>
        rcases Option.bind_eq_some.mp hstep with ⟨⟨s, retry⟩, hs, hst'⟩
        have hret := send_failed_retries hs
        cases retry with
        | true =>
            simp at hst'
            subst hst'
            exact ⟨attempts_ok_set_queue R idx s h hidx (hret.1 rfl),
              by simp [SheppardState.queue_send]⟩
        | false =>
            simp at hst'
            subst hst'
            exact ⟨attempts_ok_set R idx s h hidx (hret.2 rfl), by simp⟩
      next => simp at hstep

/-- One status-poll entry preserves the attempts invariant. -/
theorem apply_status_one_attempts_ok {R : Nat} {st st' : SheppardState}
    {r : TxStatusResult}
    (h : attempts_ok R st.execution_status st.send_attempt_count)
    (hstep : st.apply_status_one r = some st') :
    attempts_ok R st'.execution_status st'.send_attempt_count ∧
    st'.execution_status.length = st.execution_status.length := by
  cases r with
  | Success idx =>
      simp only [SheppardState.apply_status_one, Option.bind_eq_bind] at hstep
      split at hstep
      next hidx =>
        rcases Option.bind_eq_some.mp hstep with ⟨s, hs, hst'⟩
        simp only [Option.some.injEq] at hst'
        subst hst'
        exact ⟨attempts_ok_set R idx s h hidx (status_success_retries hs),
          by simp⟩
      next => simp at hstep
  | Absent idx b =>
      simp only [SheppardState.apply_status_one, Option.bind_eq_bind] at hstep
      split at hstep
      next hidx =>
        rcases Option.bind_eq_some.mp hstep with ⟨⟨s, action⟩, hs, hst'⟩
        have hret := status_absent_retries hs
        cases action with
        | WaitMore =>
            simp only [Option.some.injEq] at hst'
            subst hst'
            exact ⟨attempts_ok_set R idx s h hidx (hret.2 (by decide)),
              by simp⟩
        | Retry =>
            simp only [Option.some.injEq] at hst'
            subst hst'
            exact ⟨attempts_ok_set_queue R idx s h hidx (hret.1 rfl),
              by simp [SheppardState.queue_send]⟩
        | Failed =>
            simp only [Option.some.injEq] at hst'
            subst hst'
            exact ⟨attempts_ok_set R idx s h hidx (hret.2 (by decide)),
              by simp⟩
      next => simp at hstep
  | Pending idx confirmations =>
      simp only [SheppardState.apply_status_one, Option.bind_eq_bind] at hstep
      split at hstep
      next hidx =>
        rcases Option.bind_eq_some.mp hstep with ⟨s, hs, hst'⟩
        simp only [Option.some.injEq] at hst'
        subst hst'
        exact ⟨attempts_ok_set R idx s h hidx
          (le_of_eq (status_pending_retries hs)), by simp⟩
      next => simp at hstep
  | Fail idx error =>
      simp only [SheppardState.apply_status_one, Option.bind_eq_bind] at hstep
      split at hstep
      next hidx =>
        rcases Option.bind_eq_some.mp hstep with ⟨⟨s, retry⟩, hs, hst'⟩
        have hret := status_failed_retries hs
        cases retry with
        | true =>
            simp at hst'
            subst hst'
            exact ⟨attempts_ok_set_queue R idx s h hidx (hret.1 rfl),
              by simp [SheppardState.queue_send]⟩
        | false =>
            simp at hst'
            subst hst'
            exact ⟨attempts_ok_set R idx s h hidx (hret.2 rfl), by simp⟩
      next => simp at hstep

/-- A whole status-poll batch preserves the attempts invariant. -/
theorem apply_status_result_attempts_ok {R : Nat} {rs : List TxStatusResult}
    {st st' : SheppardState}
    (h : attempts_ok R st.execution_status st.send_attempt_count)
    (hstep : st.apply_status_result rs = some st') :
    attempts_ok R st'.execution_status st'.send_attempt_count ∧
    st'.execution_status.length = st.execution_status.length := by
  induction rs generalizing st with
  | nil =>
      simp only [SheppardState.apply_status_result, List.foldlM_nil,
        Option.pure_def, Option.some.injEq] at hstep
      subst hstep
      exact ⟨h, rfl⟩
  | cons r rest ih =>
      simp only [SheppardState.apply_status_result, List.foldlM_cons,
        Option.bind_eq_bind] at hstep
      rcases Option.bind_eq_some.mp hstep with ⟨st₁, h1, h2⟩
      obtain ⟨hok1, hlen1⟩ := apply_status_one_attempts_ok h h1
      obtain ⟨hok2, hlen2⟩ := ih hok1 (by exact h2)
      exact ⟨hok2, hlen2.trans hlen1⟩

/-- One loop iteration preserves the attempts invariant. -/
theorem sheppard_step_attempts_ok {R : Nat} {st st' : SheppardState}
    {e : SheppardEvent}
    (h : attempts_ok R st.execution_status st.send_attempt_count)
    (hstep : sheppard_step st e = some st') :
    attempts_ok R st'.execution_status st'.send_attempt_count ∧
    st'.execution_status.length = st.execution_status.length := by
  cases e with
  | sendResult r =>
      simp only [sheppard_step] at hstep
      split at hstep
      · exact @apply_send_result_attempts_ok R
          { st with sending_txs := st.sending_txs.erase r.idx } st' r h hstep
      · simp at hstep
  | statusResults rs => exact apply_status_result_attempts_ok h hstep

/-- Any event sequence preserves the attempts invariant. -/
theorem sheppard_steps_attempts_ok {R : Nat} {events : List SheppardEvent}
    {st₀ st : SheppardState}
    (h : attempts_ok R st₀.execution_status st₀.send_attempt_count)
    (hrun : events.foldlM sheppard_step st₀ = some st) :
    attempts_ok R st.execution_status st.send_attempt_count ∧
    st.execution_status.length = st₀.execution_status.length := by
  induction events generalizing st₀ with
  | nil =>
      simp only [List.foldlM_nil, Option.pure_def, Option.some.injEq] at hrun
      subst hrun
      exact ⟨h, rfl⟩
  | cons e es ih =>
      simp only [List.foldlM_cons, Option.bind_eq_bind] at hrun
      rcases Option.bind_eq_some.mp hrun with ⟨st₁, h1, h2⟩
      obtain ⟨hok1, hlen1⟩ := sheppard_step_attempts_ok h h1
      obtain ⟨hok2, hlen2⟩ := ih hok1 h2
      exact ⟨hok2, hlen2.trans hlen1⟩

/-- Claim C5: for every index driven by the shepherd configured with
`retry_count = R` and every sequence of send / status-poll outcomes
(including RPC send failures, on-chain failures and absence timeouts), the
number of send attempts ever made for that index is at most `R + 1`; with
`R = 0` each transaction is attempted exactly once. -/
theorem sheppard_retry_bound (R n : Nat) (events : List SheppardEvent)
    (st : SheppardState) (h : sheppard_run R n events = some st) (idx : Nat)
    (hidx : idx < n) :
    st.send_attempt_count.getD idx 0 ≤ R + 1 ∧
    (R = 0 → st.send_attempt_count.getD idx 0 = 1) := by
  simp only [sheppard_run] at h
  obtain ⟨⟨hlen, hall⟩, hlen'⟩ :=
    sheppard_steps_attempts_ok (attempts_ok_init R n) h
  have hlen'' : st.execution_status.length = n := by
    simpa [sheppard_init] using hlen'
  have hb := hall idx (by omega)
  exact ⟨by omega, fun hR => by omega⟩

/-- Witness for `sheppard_retry_bound` on the empty run with one builder
and `retry_count = 0`. -/
theorem sheppard_retry_bound_witness :
    (sheppard_init 0 1).send_attempt_count.getD 0 0 ≤ 0 + 1 ∧
    (0 = 0 → (sheppard_init 0 1).send_attempt_count.getD 0 0 = 1) :=
  sheppard_retry_bound 0 1 [] (sheppard_init 0 1) rfl 0 (by decide)

/-- Claim C1, failing input: one builder, `retry_count = 0`, whose single
send attempt fails at the RPC-send stage.  The loop exits (both the
in-flight send set and the status-check set are empty) with the transaction
in the `Failed` state, yet `succeeded_count + failed_count = 0`, not 1:
`apply_send_result` never increments `failed_count` when `send_failed`
exhausts the retries, unlike the status-poll paths. -/
theorem sheppard_send_stage_failure_not_counted :
    ∃ st, sheppard_run 0 1 [.sendResult (.Fail 0 "transport error")] =
        some st ∧
      sheppard_loop_exited st ∧
      st.execution_status = [.Failed "transport error"] ∧
      st.succeeded_count + st.failed_count = 0 :=
  ⟨_, rfl, ⟨rfl, rfl⟩, rfl, rfl⟩

end PythnetHeisenberg
